import Mathlib

/-!
Formal model of the per-frame systems of `src/main.rs` (a minimal third-person
camera and movement controller on bevy 0.4 / glam 0.12).  Machine `f32`
arithmetic is modelled by exact real arithmetic; engine math primitives
(`Vec2`, `Vec3`, `Quat`, `Transform`, `Mat4::face_toward`,
`to_scale_rotation_translation`) are modelled from their glam / bevy 0.4
semantics.  The three systems `process_mouse_events`, `update_camera` and
`update_play` are translated statement by statement from the source.
-/

noncomputable section

open Real

/-- glam `Vec2` over exact reals. -/
structure Vec2 where
  x : ℝ
  y : ℝ

/-- glam `Vec2::zero()`. -/
def Vec2.zero : Vec2 := ⟨0, 0⟩

/-- Componentwise scalar multiplication, glam `Vec2 * f32`. -/
def Vec2.smul (v : Vec2) (s : ℝ) : Vec2 := ⟨v.x * s, v.y * s⟩

/-- glam `Vec3` over exact reals. -/
structure Vec3 where
  x : ℝ
  y : ℝ
  z : ℝ

/-- glam `Vec3::zero()`. -/
def Vec3.zero : Vec3 := ⟨0, 0, 0⟩

/-- glam `Vec3::unit_y()`. -/
def Vec3.unitY : Vec3 := ⟨0, 1, 0⟩

/-- glam `Vec3::unit_z()`. -/
def Vec3.unitZ : Vec3 := ⟨0, 0, 1⟩

/-- Componentwise vector sum. -/
def Vec3.add (a b : Vec3) : Vec3 := ⟨a.x + b.x, a.y + b.y, a.z + b.z⟩

/-- Componentwise vector difference. -/
def Vec3.sub (a b : Vec3) : Vec3 := ⟨a.x - b.x, a.y - b.y, a.z - b.z⟩

/-- Componentwise scalar multiplication, glam `Vec3 * f32`. -/
def Vec3.smul (v : Vec3) (s : ℝ) : Vec3 := ⟨v.x * s, v.y * s, v.z * s⟩

/-- glam `Vec3::dot`. -/
def Vec3.dot (a b : Vec3) : ℝ := a.x * b.x + a.y * b.y + a.z * b.z

/-- glam `Vec3::cross`. -/
def Vec3.cross (a b : Vec3) : Vec3 :=
  ⟨a.y * b.z - a.z * b.y, a.z * b.x - a.x * b.z, a.x * b.y - a.y * b.x⟩

/-- glam `Vec3::length`. -/
def Vec3.length (v : Vec3) : ℝ := Real.sqrt (Vec3.dot v v)

/-- glam `Vec3::normalize`: the vector times the reciprocal of its length. -/
def Vec3.normalize (v : Vec3) : Vec3 := v.smul (1 / v.length)

/-- glam `Quat` (x, y, z imaginary parts, w real part) over exact reals. -/
structure Quat where
  x : ℝ
  y : ℝ
  z : ℝ
  w : ℝ

/-- glam `Quat::identity()`. -/
def Quat.identity : Quat := ⟨0, 0, 0, 1⟩

/-- glam `Quat::from_rotation_y(angle)`: half-angle form about the y axis. -/
def Quat.fromRotationY (angle : ℝ) : Quat :=
  ⟨0, Real.sin (angle / 2), 0, Real.cos (angle / 2)⟩

/-- glam `Quat::mul_quat` (Hamilton product in glam component order). -/
def Quat.mul (a b : Quat) : Quat :=
  ⟨a.w * b.x + a.x * b.w + a.y * b.z - a.z * b.y,
   a.w * b.y - a.x * b.z + a.y * b.w + a.z * b.x,
   a.w * b.z + a.x * b.y - a.y * b.x + a.z * b.w,
   a.w * b.w - a.x * b.x - a.y * b.y - a.z * b.z⟩

/-- glam `Quat::mul_vec3`:
`v * (w*w - dot b b) + b * (2 * dot v b) + cross b v * (2 * w)` with `b` the
imaginary part. -/
def Quat.mulVec3 (q : Quat) (v : Vec3) : Vec3 :=
  let b : Vec3 := ⟨q.x, q.y, q.z⟩
  let b2 := Vec3.dot b b
  Vec3.add (Vec3.add (v.smul (q.w * q.w - b2)) (b.smul (2 * Vec3.dot v b)))
    ((Vec3.cross b v).smul (2 * q.w))

/-- Four-component dot product of quaternions, glam `Quat::dot`. -/
def Quat.dot4 (a b : Quat) : ℝ := a.x * b.x + a.y * b.y + a.z * b.z + a.w * b.w

/-- Componentwise quaternion sum (glam `Vec4` addition underlying `Quat`). -/
def Quat.qadd (a b : Quat) : Quat := ⟨a.x + b.x, a.y + b.y, a.z + b.z, a.w + b.w⟩

/-- Componentwise quaternion difference. -/
def Quat.qsub (a b : Quat) : Quat := ⟨a.x - b.x, a.y - b.y, a.z - b.z, a.w - b.w⟩

/-- Componentwise quaternion scaling. -/
def Quat.qsmul (a : Quat) (s : ℝ) : Quat := ⟨a.x * s, a.y * s, a.z * s, a.w * s⟩

/-- glam `Quat::length`. -/
def Quat.qlength (q : Quat) : ℝ := Real.sqrt (Quat.dot4 q q)

/-- glam `Quat::normalize`. -/
def Quat.qnormalize (q : Quat) : Quat := q.qsmul (1 / q.qlength)

/-- glam `Quat::lerp(end, s)`: linear interpolation with sign bias from the
dot product, followed by normalization. -/
def Quat.lerp (q r : Quat) (s : ℝ) : Quat :=
  let bias : ℝ := if 0 ≤ Quat.dot4 q r then 1 else -1
  Quat.qnormalize (Quat.qadd q (Quat.qsmul (Quat.qsub (r.qsmul bias) q) s))

/-- bevy `Transform` (scale carried along; the systems never touch it). -/
structure Transform where
  translation : Vec3
  rotation : Quat
  scale : Vec3

/-- bevy `Transform::identity()`. -/
def Transform.identityT : Transform := ⟨Vec3.zero, Quat.identity, ⟨1, 1, 1⟩⟩

/-- bevy `Transform::forward()`: the local z axis rotated by the rotation of the transform. -/
def Transform.forward (t : Transform) : Vec3 := Quat.mulVec3 t.rotation Vec3.unitZ

/-- Rust `f32::to_radians`. -/
def toRadians (x : ℝ) : ℝ := x * (Real.pi / 180)

/-- The `Position` component of `main.rs` lines 23-29: orbit state plus a
back-reference to the camera entity (entities modelled as `Nat` ids). -/
structure Position where
  yaw : ℝ
  camera_distance : ℝ
  camera_pitch : ℝ
  camera_entity : Option Nat

/-- Default `Position` (`main.rs` lines 31-41). -/
def Position.default : Position :=
  { yaw := 0, camera_distance := 20, camera_pitch := toRadians 30, camera_entity := none }

/-- The `Player` component of `main.rs` lines 43-47: the cached target pose. -/
structure Player where
  pos_translation : Vec3
  pos_rotation : Quat

/-- Derived `Default` for `Player`: zero vector and identity quaternion. -/
def Player.default : Player := ⟨Vec3.zero, Quat.identity⟩

/-- A `MouseMotion` event (only the `delta` field is read). -/
structure MouseMotion where
  delta : Vec2

/-- A `MouseWheel` event (only the `y` field is read). -/
structure MouseWheel where
  y : ℝ

/-- Loop body of `process_mouse_events` over one `Position`
(`main.rs` lines 126-130), with `look_sense = 1.0` and `zoom_sense = 10.0`. -/
def processMousePos (look : Vec2) (zoomDelta dt : ℝ) (pos : Position) : Position :=
  { pos with
    yaw := pos.yaw + look.x * dt,
    camera_pitch := pos.camera_pitch - look.y * dt * 1,
    camera_distance := pos.camera_distance - zoomDelta * dt * 10 }

/-- System `process_mouse_events` (`main.rs` lines 105-131).  The event-reader loops
overwrite `look` / `zoom_delta` on every event, so only the last event of each
kind read this frame survives; then every `Position` in the query is updated. -/
def processMouseEvents (motions : List MouseMotion) (wheels : List MouseWheel)
    (dt : ℝ) (positions : List Position) : List Position :=
  let look := motions.foldl (fun _ event => event.delta) Vec2.zero
  let zoomDelta := wheels.foldl (fun _ event => event.y) 0
  positions.map (processMousePos look zoomDelta dt)

/-- Claim C1: `process_mouse_events` maps the raw deltas read this frame to
orbit parameters on every `Position`: yaw increases by `look.x * dt`, pitch
decreases by `look.y * dt * 1.0`, distance decreases by
`zoom_delta * dt * 10.0`, and no other field of `Position` changes. -/
theorem process_mouse_events_delta_mapping (motions : List MouseMotion)
    (wheels : List MouseWheel) (dt : ℝ) (positions : List Position) :
    processMouseEvents motions wheels dt positions = positions.map (fun pos =>
      { yaw := pos.yaw + (motions.foldl (fun _ event => event.delta) Vec2.zero).x * dt,
        camera_pitch :=
          pos.camera_pitch - (motions.foldl (fun _ event => event.delta) Vec2.zero).y * dt * 1,
        camera_distance :=
          pos.camera_distance - (wheels.foldl (fun _ event => event.y) 0) * dt * 10,
        camera_entity := pos.camera_entity }) := rfl

/-- Claim C8: when several mouse-motion (or wheel) events arrive in one frame,
only the last event of each kind has any effect: prefixed earlier events are
overwritten and the system result equals the run on the last events alone. -/
theorem last_event_of_each_kind_wins (motions : List MouseMotion) (m : MouseMotion)
    (wheels : List MouseWheel) (w : MouseWheel) (dt : ℝ) (positions : List Position) :
    processMouseEvents (motions ++ [m]) (wheels ++ [w]) dt positions =
      processMouseEvents [m] [w] dt positions := by
  simp [processMouseEvents, List.foldl_append]

/-- The keyboard state read by `update_camera` (`W`, `S`, `D`, `A`). -/
structure KeyboardInput where
  keyW : Bool
  keyS : Bool
  keyD : Bool
  keyA : Bool

/-- Keyboard polling of `update_camera` (`main.rs` lines 139-143). -/
def keyMovement (keys : KeyboardInput) : Vec2 :=
  let movement := Vec2.zero
  let movement := if keys.keyW then { movement with y := movement.y + 1 } else movement
  let movement := if keys.keyS then { movement with y := movement.y - 1 } else movement
  let movement := if keys.keyD then { movement with x := movement.x + 1 } else movement
  let movement := if keys.keyA then { movement with x := movement.x - 1 } else movement
  movement

/-- Camera offset of `main.rs` line 171:
`Vec3::new(0., pitch.cos(), -pitch.sin()).normalize() * distance`. -/
def camPos (pitch distance : ℝ) : Vec3 :=
  (Vec3.normalize ⟨0, Real.cos pitch, -Real.sin pitch⟩).smul distance

/-- Loop body of `update_camera` over one `(Position, Transform)` pair
(`main.rs` lines 155-174): clamp pitch and distance, apply keyboard movement
along the forward/right axes of the transform, set the yaw rotation, and collect
the camera placement for the second loop. -/
def orbitStep (movement : Vec2) (pos : Position) (transform : Transform) :
    Position × Transform × Option (Nat × Vec3) :=
  let pos := { pos with
    camera_pitch := min (max pos.camera_pitch (toRadians 1)) (toRadians 179),
    camera_distance := min (max pos.camera_distance 5) 30 }
  let fwd := transform.forward
  let right := Vec3.cross fwd Vec3.unitY
  let fwd := fwd.smul movement.y
  let right := right.smul movement.x
  let transform := { transform with
    translation := Vec3.add transform.translation (Vec3.add fwd right) }
  let transform := { transform with rotation := Quat.fromRotationY (-pos.yaw) }
  (pos, transform,
    pos.camera_entity.map (fun ce => (ce, camPos pos.camera_pitch pos.camera_distance)))

/-- Claim C10: neither per-frame system writes the `camera_entity`
back-reference: the `process_mouse_events` loop body rewrites only yaw, pitch
and distance, and the `update_camera` loop body rewrites only pitch and
distance, so `camera_entity` keeps its setup-time value. -/
theorem camera_entity_never_modified (look : Vec2) (zoomDelta dt : ℝ)
    (movement : Vec2) (pos : Position) (transform : Transform) :
    (processMousePos look zoomDelta dt pos).camera_entity = pos.camera_entity ∧
    ((orbitStep movement pos transform).1).camera_entity = pos.camera_entity :=
  ⟨rfl, rfl⟩

/-- Claim C2: every pass of the `update_camera` loop clamps `camera_pitch`
into `[1 degree, 179 degrees]` (in radians) and `camera_distance` into
`[5, 30]`, and the camera placement collected that frame is computed from
exactly those clamped values. -/
theorem update_camera_clamps_ranges (movement : Vec2) (pos : Position)
    (transform : Transform) :
    toRadians 1 ≤ (orbitStep movement pos transform).1.camera_pitch ∧
    (orbitStep movement pos transform).1.camera_pitch ≤ toRadians 179 ∧
    (5 : ℝ) ≤ (orbitStep movement pos transform).1.camera_distance ∧
    (orbitStep movement pos transform).1.camera_distance ≤ 30 ∧
    (orbitStep movement pos transform).2.2 = pos.camera_entity.map
      (fun ce => (ce, camPos (orbitStep movement pos transform).1.camera_pitch
        (orbitStep movement pos transform).1.camera_distance)) := by
  have hp : toRadians 1 ≤ toRadians 179 := by
    have h := Real.pi_pos
    simp only [toRadians]
    nlinarith
  refine ⟨?_, ?_, ?_, ?_, rfl⟩
  · exact le_min (le_max_right _ _) hp
  · exact min_le_right _ _
  · exact le_min (le_max_right _ _) (by norm_num)
  · exact min_le_right _ _

/-- Loop body of `update_play` over one `(Player, Transform)` pair
(`main.rs` lines 195-199): the translation is assigned the cached target
directly, the rotation is lerped toward the cached target with factor 0.05. -/
def updatePlayStep (player : Player) (transform : Transform) : Transform :=
  let transform := { transform with translation := player.pos_translation }
  let lerpRotation := Quat.lerp transform.rotation player.pos_rotation (0.05 : ℝ)
  { transform with rotation := lerpRotation }

/-- System `update_play` (`main.rs` lines 192-200). -/
def updatePlay (pairs : List (Player × Transform)) : List (Player × Transform) :=
  pairs.map (fun pt => (pt.1, updatePlayStep pt.1 pt.2))

/-- Player and transform exhibiting the counterexample to claim C3. -/
def c3Player : Player := ⟨⟨1, 0, 0⟩, Quat.identity⟩

/-- Starting transform for the claim C3 counterexample. -/
def c3Transform : Transform := ⟨⟨0, 0, 0⟩, Quat.identity, ⟨1, 1, 1⟩⟩

/-- Claim C3 (counterexample): the translation does NOT move only a fraction
of the way toward the cached target: starting from the origin with cached
target `(1, 0, 0)`, one `update_play` step lands exactly on the target,
jumping the whole way in a single frame. -/
theorem update_play_translation_jumps :
    c3Transform.translation ≠ c3Player.pos_translation ∧
    (updatePlayStep c3Player c3Transform).translation = c3Player.pos_translation := by
  constructor
  · intro h
    have hx := congrArg Vec3.x h
    simp [c3Transform, c3Player] at hx
  · rfl

/-- Claim C3 (amended): `update_play` moves only the rotation fractionally:
the translation is set directly to the cached target `pos_translation`, while
the rotation is linearly interpolated (engine quaternion lerp, factor 0.05)
from its current value toward the cached target `pos_rotation`; scale is
untouched.  Concretely, interpolating from the identity rotation toward the
half-turn `(0,1,0,0)` lands strictly between the two. -/
theorem update_play_jumps_translation_lerps_rotation (player : Player)
    (transform : Transform) :
    (updatePlayStep player transform).translation = player.pos_translation ∧
    (updatePlayStep player transform).rotation =
      Quat.lerp transform.rotation player.pos_rotation (0.05 : ℝ) ∧
    (updatePlayStep player transform).scale = transform.scale ∧
    Quat.lerp Quat.identity ⟨0, 1, 0, 0⟩ (0.05 : ℝ) ≠ ⟨0, 1, 0, 0⟩ ∧
    Quat.lerp Quat.identity ⟨0, 1, 0, 0⟩ (0.05 : ℝ) ≠ Quat.identity := by
  have hsq : (0 : ℝ) < Real.sqrt (0.905 : ℝ) := by
    rw [Real.sqrt_pos]; norm_num
  have hlerp : Quat.lerp Quat.identity ⟨0, 1, 0, 0⟩ (0.05 : ℝ) =
      ⟨0, 0.05 * (1 / Real.sqrt 0.905), 0, 0.95 * (1 / Real.sqrt 0.905)⟩ := by
    simp only [Quat.lerp, Quat.identity, Quat.dot4, Quat.qadd, Quat.qsub, Quat.qsmul,
      Quat.qnormalize, Quat.qlength]
    norm_num
  refine ⟨rfl, rfl, rfl, ?_, ?_⟩
  · rw [hlerp]
    intro h
    have hw := congrArg Quat.w h
    simp only at hw
    have hpos : (0.95 : ℝ) * (1 / Real.sqrt 0.905) > 0 := by positivity
    linarith
  · rw [hlerp]
    intro h
    have hy := congrArg Quat.y h
    simp only [Quat.identity] at hy
    have hpos : (0.05 : ℝ) * (1 / Real.sqrt 0.905) > 0 := by positivity
    linarith

/-- The direction `(0, cos pitch, -sin pitch)` is a unit vector, so the camera
offset of line 171 has length exactly `distance` whenever `distance` is
nonnegative. -/
lemma camPos_length (p d : ℝ) (hd : 0 ≤ d) : Vec3.length (camPos p d) = d := by
  have hs := Real.sin_sq_add_cos_sq p
  simp only [camPos, Vec3.normalize, Vec3.length, Vec3.dot, Vec3.smul]
  have hL : Real.sqrt ((0:ℝ) * 0 + Real.cos p * Real.cos p + -Real.sin p * -Real.sin p) = 1 := by
    rw [show (0:ℝ) * 0 + Real.cos p * Real.cos p + -Real.sin p * -Real.sin p
        = Real.sin p ^ 2 + Real.cos p ^ 2 by ring, hs, Real.sqrt_one]
  rw [hL]
  rw [show (0:ℝ) * (1 / 1) * d * (0 * (1 / 1) * d)
      + Real.cos p * (1 / 1) * d * (Real.cos p * (1 / 1) * d)
      + -Real.sin p * (1 / 1) * d * (-Real.sin p * (1 / 1) * d)
      = (Real.sin p ^ 2 + Real.cos p ^ 2) * d ^ 2 by ring, hs, one_mul,
      Real.sqrt_sq hd]

/-- Claim C5: for a `Position` holding a camera back-reference, the camera
placement collected by `update_camera` is
`normalize (0, cos pitch, -sin pitch) * distance` at the clamped pitch and
distance, and its length (the offset of the camera from the origin of its parent) is
exactly the clamped `camera_distance`. -/
theorem camera_offset_length_equals_distance (movement : Vec2) (pos : Position)
    (transform : Transform) (ce : Nat) (hce : pos.camera_entity = some ce) :
    (orbitStep movement pos transform).2.2 =
      some (ce, camPos (orbitStep movement pos transform).1.camera_pitch
        (orbitStep movement pos transform).1.camera_distance) ∧
    Vec3.length (camPos (orbitStep movement pos transform).1.camera_pitch
        (orbitStep movement pos transform).1.camera_distance) =
      (orbitStep movement pos transform).1.camera_distance := by
  constructor
  · simp [orbitStep, hce]
  · apply camPos_length
    show (0:ℝ) ≤ min (max pos.camera_distance 5) 30
    exact le_trans (by norm_num) (le_min (le_max_right _ _) (by norm_num))

/-- A `Position` with a camera back-reference, for the claim C5 witness. -/
def c5Pos : Position :=
  { yaw := 0, camera_distance := 20, camera_pitch := toRadians 30, camera_entity := some 0 }

/-- Witness instantiating `camera_offset_length_equals_distance` at a concrete
position. -/
theorem camera_offset_length_equals_distance_witness :
    (orbitStep Vec2.zero c5Pos Transform.identityT).2.2 =
      some (0, camPos (orbitStep Vec2.zero c5Pos Transform.identityT).1.camera_pitch
        (orbitStep Vec2.zero c5Pos Transform.identityT).1.camera_distance) ∧
    Vec3.length (camPos (orbitStep Vec2.zero c5Pos Transform.identityT).1.camera_pitch
        (orbitStep Vec2.zero c5Pos Transform.identityT).1.camera_distance) =
      (orbitStep Vec2.zero c5Pos Transform.identityT).1.camera_distance :=
  camera_offset_length_equals_distance Vec2.zero c5Pos Transform.identityT 0 rfl

/-- Claim C6: when the rotation of the orbit entity is a rotation purely about the
world y axis (zero x and z quaternion components, as `update_camera` itself
establishes via `Quat::from_rotation_y`), the keyboard movement applied by
`update_camera` leaves the y component of the translation unchanged. -/
theorem keyboard_movement_preserves_height (movement : Vec2) (pos : Position)
    (transform : Transform) (hx : transform.rotation.x = 0)
    (hz : transform.rotation.z = 0) :
    ((orbitStep movement pos transform).2.1).translation.y =
      transform.translation.y := by
  simp only [orbitStep, Transform.forward, Quat.mulVec3, Vec3.unitZ, Vec3.unitY,
    Vec3.dot, Vec3.cross, Vec3.smul, Vec3.add, hx, hz]
  ring

/-- A transform whose rotation is the identity (a y-axis rotation by zero),
for the claim C6 witness. -/
def c6Transform : Transform := ⟨⟨0, 0, 0⟩, ⟨0, 0, 0, 1⟩, ⟨1, 1, 1⟩⟩

/-- Witness instantiating `keyboard_movement_preserves_height` concretely. -/
theorem keyboard_movement_preserves_height_witness :
    ((orbitStep ⟨1, 1⟩ Position.default c6Transform).2.1).translation.y =
      c6Transform.translation.y :=
  keyboard_movement_preserves_height ⟨1, 1⟩ Position.default c6Transform rfl rfl

/-- The displacement `update_camera` adds to the translation of the orbit entity is
`forward * movement.y + right * movement.x` (`main.rs` lines 159-164). -/
lemma orbitStep_displacement (movement : Vec2) (pos : Position) (transform : Transform) :
    Vec3.sub ((orbitStep movement pos transform).2.1).translation transform.translation
      = Vec3.add ((transform.forward).smul movement.y)
          ((Vec3.cross transform.forward Vec3.unitY).smul movement.x) := by
  simp only [orbitStep, Vec3.sub, Vec3.add, Vec3.smul, Vec3.mk.injEq]
  refine ⟨by ring, by ring, by ring⟩

/-- The forward axis of a transform whose rotation is `from_rotation_y`,
computed from the glam quaternion action. -/
lemma forward_fromRotationY (transform : Transform) (θ : ℝ)
    (h : transform.rotation = Quat.fromRotationY θ) :
    transform.forward = ⟨2 * Real.cos (θ / 2) * Real.sin (θ / 2), 0,
      Real.cos (θ / 2) * Real.cos (θ / 2) - Real.sin (θ / 2) * Real.sin (θ / 2)⟩ := by
  simp only [Transform.forward, h, Quat.fromRotationY, Quat.mulVec3, Vec3.unitZ,
    Vec3.dot, Vec3.cross, Vec3.smul, Vec3.add, Vec3.mk.injEq]
  refine ⟨by ring, by ring, by ring⟩

/-- Claim C9: the `movement.normalize()` result on line 145 is discarded, so
with `W` and `D` pressed together against a y-axis rotation the per-frame
displacement has magnitude `sqrt 2 * move_speed * delta_seconds`, i.e.
`sqrt 2` times the single-key displacement rather than a normalized one. -/
theorem diagonal_movement_is_sqrt_two_faster (dt θ : ℝ) (pos : Position)
    (transform : Transform) (hdt : 0 ≤ dt)
    (hrot : transform.rotation = Quat.fromRotationY θ) :
    Vec3.length (Vec3.sub
      ((orbitStep ((keyMovement ⟨true, false, true, false⟩).smul (dt * 10))
        pos transform).2.1).translation
      transform.translation) = Real.sqrt 2 * (10 * dt) := by
  have hs := Real.sin_sq_add_cos_sq (θ / 2)
  rw [orbitStep_displacement, forward_fromRotationY transform θ hrot]
  have hkm : (keyMovement ⟨true, false, true, false⟩).smul (dt * 10)
      = (⟨dt * 10, dt * 10⟩ : Vec2) := by
    simp [keyMovement, Vec2.zero, Vec2.smul]
  rw [hkm]
  have hR : Real.sqrt 2 * (10 * dt) = Real.sqrt (2 * (10 * dt) ^ 2) := by
    rw [Real.sqrt_mul (by norm_num : (0:ℝ) ≤ 2),
      Real.sqrt_sq (mul_nonneg (by norm_num) hdt)]
  rw [hR]
  simp only [Vec3.cross, Vec3.unitY, Vec3.smul, Vec3.add, Vec3.length, Vec3.dot]
  apply congrArg
  linear_combination (2 * (10 * dt) ^ 2 *
    (Real.sin (θ / 2) ^ 2 + Real.cos (θ / 2) ^ 2 + 1)) * hs

/-- A transform rotated by `from_rotation_y 0`, for the claim C9 witness. -/
def c9Transform : Transform := ⟨⟨0, 0, 0⟩, Quat.fromRotationY 0, ⟨1, 1, 1⟩⟩

/-- Witness instantiating `diagonal_movement_is_sqrt_two_faster` at
`delta_seconds = 1`. -/
theorem diagonal_movement_is_sqrt_two_faster_witness :
    Vec3.length (Vec3.sub
      ((orbitStep ((keyMovement ⟨true, false, true, false⟩).smul ((1:ℝ) * 10))
        Position.default c9Transform).2.1).translation
      c9Transform.translation) = Real.sqrt 2 * (10 * 1) :=
  diagonal_movement_is_sqrt_two_faster 1 0 Position.default c9Transform
    (by norm_num) rfl

/-- Mat3 columns (`x_axis`, `y_axis`, `z_axis`) of the rotation part of a
glam `Mat4` built by `face_toward` (the translation column does not affect
the extracted rotation beyond the determinant, which for an affine matrix is
the determinant of this 3x3 part). -/
structure Mat3 where
  xAxis : Vec3
  yAxis : Vec3
  zAxis : Vec3

/-- Determinant of the 3x3 matrix: triple product of the columns. -/
def Mat3.det (m : Mat3) : ℝ := Vec3.dot m.zAxis (Vec3.cross m.xAxis m.yAxis)

/-- Rust `f32::signum` (sign-bit based: nonnegative zero maps to 1). -/
def signum (x : ℝ) : ℝ := if x < 0 then -1 else 1

/-- bevy `Mat4::face_toward(eye, center, up)`: orthonormal frame with
`forward = normalize(eye - center)`, `right = normalize(up x forward)`,
`up = forward x right`. -/
def faceToward (eye center up : Vec3) : Mat3 :=
  let forward := (Vec3.sub eye center).normalize
  let right := (Vec3.cross up forward).normalize
  let up := Vec3.cross forward right
  ⟨right, up, forward⟩

/-- glam `Quat::from_rotation_mat3` (DirectXMath `XMQuaternionRotationMatrix`
branching on the dominant component). -/
def quatFromMat3 (m : Mat3) : Quat :=
  let m00 := m.xAxis.x
  let m01 := m.xAxis.y
  let m02 := m.xAxis.z
  let m10 := m.yAxis.x
  let m11 := m.yAxis.y
  let m12 := m.yAxis.z
  let m20 := m.zAxis.x
  let m21 := m.zAxis.y
  let m22 := m.zAxis.z
  if m22 ≤ 0 then
    let dif10 := m11 - m00
    let omm22 := 1 - m22
    if dif10 ≤ 0 then
      let fourXSq := omm22 - dif10
      let inv4x := (0.5 : ℝ) / Real.sqrt fourXSq
      ⟨fourXSq * inv4x, (m01 + m10) * inv4x, (m02 + m20) * inv4x, (m12 - m21) * inv4x⟩
    else
      let fourYSq := omm22 + dif10
      let inv4y := (0.5 : ℝ) / Real.sqrt fourYSq
      ⟨(m01 + m10) * inv4y, fourYSq * inv4y, (m12 + m21) * inv4y, (m20 - m02) * inv4y⟩
  else
    let sum10 := m11 + m00
    let opm22 := 1 + m22
    if sum10 ≤ 0 then
      let fourZSq := opm22 - sum10
      let inv4z := (0.5 : ℝ) / Real.sqrt fourZSq
      ⟨(m02 + m20) * inv4z, (m12 + m21) * inv4z, fourZSq * inv4z, (m01 - m10) * inv4z⟩
    else
      let fourWSq := opm22 + sum10
      let inv4w := (0.5 : ℝ) / Real.sqrt fourWSq
      ⟨(m21 - m12) * inv4w, (m20 - m02) * inv4w, (m01 - m10) * inv4w, fourWSq * inv4w⟩

/-- glam `Mat4::to_scale_rotation_translation().1`: divide the columns by the
extracted scale (`x` scale carries the determinant sign), then extract the
rotation quaternion. -/
def toScaleRotationTranslationRot (m : Mat3) : Quat :=
  let det := m.det
  let scale : Vec3 := ⟨m.xAxis.length * signum det, m.yAxis.length, m.zAxis.length⟩
  quatFromMat3 ⟨m.xAxis.smul (1 / scale.x), m.yAxis.smul (1 / scale.y),
    m.zAxis.smul (1 / scale.z)⟩

/-- Body of the second `update_camera` loop for one collected
`(camera_entity, cam_pos)` pair (`main.rs` lines 176-184): fetch the camera
`Transform` (the `Err` branch of `get_component_mut` skips the update), place
the camera, aim it at the origin, and fold its rotation into `pos_rotation`. -/
def camApply (lookup : Nat → Option Transform)
    (acc : Quat × List (Nat × Transform)) (cp : Nat × Vec3) :
    Quat × List (Nat × Transform) :=
  match lookup cp.1 with
  | some camTrans =>
      let camTrans := { camTrans with translation := cp.2 }
      let look := faceToward camTrans.translation Vec3.zero ⟨0, 1, 0⟩
      let camTrans := { camTrans with rotation := toScaleRotationTranslationRot look }
      (Quat.mul acc.1 camTrans.rotation, acc.2 ++ [(cp.1, camTrans)])
  | none => acc

/-- Result state of one `update_camera` run. -/
structure UpdateCameraResult where
  orbits : List (Position × Transform)
  cams : List (Nat × Transform)
  players : List Player

/-- System `update_camera` (`main.rs` lines 133-190).  The `movement.normalize()`
call on line 145 returns a fresh vector that the source discards, so the
movement vector is scaled unnormalized by `delta_seconds * move_speed` with
`move_speed = 10.0`.  `pos_translation` / `pos_rotation` start at zero /
identity and are overwritten by every orbit iteration (the last one wins),
then `pos_rotation` is multiplied by each placed camera rotation, and every
`Player` receives the resulting pair. -/
def updateCamera (dt : ℝ) (keys : KeyboardInput)
    (orbits : List (Position × Transform)) (lookup : Nat → Option Transform)
    (players : List Player) : UpdateCameraResult :=
  let movement := keyMovement keys
  let movement := movement.smul (dt * 10)
  let step := orbits.map (fun pt => orbitStep movement pt.1 pt.2)
  let lastPose := step.foldl (fun _ s => (s.2.1.translation, s.2.1.rotation))
    (Vec3.zero, Quat.identity)
  let camPositions := step.filterMap (fun s => s.2.2)
  let fold := camPositions.foldl (camApply lookup) (lastPose.2, [])
  { orbits := step.map (fun s => (s.1, s.2.1)),
    cams := fold.2,
    players := players.map (fun _ =>
      { pos_translation := lastPose.1, pos_rotation := fold.1 }) }

/-- Model of bevy 0.4 `Commands`: `spawn` allocates the next entity id and
records it as the current entity; `current_entity` reads that `Option`. -/
structure Commands where
  nextId : Nat
  current : Option Nat

/-- The fresh command buffer handed to the startup system. -/
def Commands.init : Commands := ⟨0, none⟩

/-- Model of `Commands::spawn`: after every spawn `current_entity` is `Some`. -/
def Commands.spawn (c : Commands) : Commands := ⟨c.nextId + 1, some c.nextId⟩

/-- The scene facts produced by `setup` that later systems rely on. -/
structure SetupScene where
  cameraEntity : Nat
  posEntity : Nat
  posComponent : Position
  children : List (Nat × Nat)

/-- Startup system `setup` (`main.rs` lines 55-103), with the panic of `Option::unwrap`
modelled as `none`: spawn the camera, spawn the orbit cube carrying a
`Position` whose `camera_entity` back-reference is the camera
`current_entity`, unwrap both current entities for `push_children`, then
spawn the plane, the light and the player cube. -/
def setup : Option SetupScene :=
  let c := Commands.init.spawn
  let cameraEntity := c.current
  let c := c.spawn
  let posEntity := c.current
  match posEntity, cameraEntity with
  | some pe, some ce =>
      let c := c.spawn
      let c := c.spawn
      let _ := c.spawn
      some { cameraEntity := ce, posEntity := pe,
             posComponent := { Position.default with camera_entity := cameraEntity },
             children := [(pe, ce)] }
  | _, _ => none

/-- Claim C7: the only fallible operations are the engine lookups: the
`current_entity` unwraps in `setup` never hit their `None` branch (`spawn`
always records a current entity, so `setup` completes), and whenever the
camera entity `Transform` fetch succeeds the `Err` branch of
`get_component_mut` is not taken: the camera update runs and appends the
placed camera. -/
theorem setup_and_camera_lookup_never_fail :
    setup.isSome = true ∧
    ∀ (lookup : Nat → Option Transform) (acc : Quat × List (Nat × Transform))
      (ce : Nat) (cp : Vec3) (camTrans : Transform), lookup ce = some camTrans →
      ((camApply lookup acc (ce, cp)).2).length = acc.2.length + 1 := by
  refine ⟨rfl, ?_⟩
  intro lookup acc ce cp camTrans h
  simp [camApply, h]

/-- Witness instantiating `setup_and_camera_lookup_never_fail` with a
total lookup table. -/
theorem setup_and_camera_lookup_never_fail_witness :
    ((camApply (fun _ => some Transform.identityT) (Quat.identity, [])
      (0, Vec3.zero)).2).length = 0 + 1 :=
  setup_and_camera_lookup_never_fail.2 (fun _ => some Transform.identityT)
    (Quat.identity, []) 0 Vec3.zero Transform.identityT rfl

/-- The collected camera placement of one `update_camera` orbit iteration:
present exactly when the `Position` holds a camera back-reference, computed
from the clamped pitch and distance. -/
lemma orbitStep_camOpt (movement : Vec2) (pos : Position) (transform : Transform) :
    (orbitStep movement pos transform).2.2 = pos.camera_entity.map
      (fun ce => (ce, camPos (orbitStep movement pos transform).1.camera_pitch
        (orbitStep movement pos transform).1.camera_distance)) := rfl

/-- The post-movement rotation of the orbit entity is the yaw rotation. -/
lemma orbitStep_rotation (movement : Vec2) (pos : Position) (transform : Transform) :
    ((orbitStep movement pos transform).2.1).rotation =
      Quat.fromRotationY (-pos.yaw) := rfl

/-- The `Position` of the claim C4 scenario: yaw 0, pitch 90 degrees,
distance 20, camera entity 0. -/
def c4Pos : Position :=
  { yaw := 0, camera_distance := 20, camera_pitch := Real.pi / 2, camera_entity := some 0 }

/-- Camera transform lookup of the claim C4 scenario: entity 0 has the
identity transform. -/
def c4Lookup : Nat → Option Transform := fun _ => some Transform.identityT

/-- Claim C4 (counterexample): the rotation cached into the `Player` is NOT
the post-movement rotation of the orbit entity, which is the yaw rotation: with
yaw 0 and pitch 90 degrees the camera look-at rotation is the half-turn
`(0, 1, 0, 0)`, and `pos_rotation *= cam_trans.rotation` folds it in, so the
cached rotation is the half-turn, not the identity yaw rotation. -/
theorem update_camera_cached_rotation_counterexample :
    ((updateCamera 0 ⟨false, false, false, false⟩ [(c4Pos, Transform.identityT)]
        c4Lookup [Player.default]).players.map Player.pos_rotation)
      ≠ [Quat.fromRotationY (-c4Pos.yaw)] := by
  have h400 : Real.sqrt 400 = 20 := by
    rw [show (400 : ℝ) = 20 ^ 2 by norm_num, Real.sqrt_sq (by norm_num : (0:ℝ) ≤ 20)]
  have h4 : Real.sqrt 4 = 2 := by
    rw [show (4 : ℝ) = 2 ^ 2 by norm_num, Real.sqrt_sq (by norm_num : (0:ℝ) ≤ 2)]
  have hpitch : min (max (Real.pi / 2) (toRadians 1)) (toRadians 179) = Real.pi / 2 := by
    have hp := Real.pi_pos
    rw [max_eq_left (by simp only [toRadians]; nlinarith),
      min_eq_left (by simp only [toRadians]; nlinarith)]
  have hdist : min (max (20 : ℝ) 5) 30 = 20 := by
    rw [max_eq_left (by norm_num), min_eq_left (by norm_num)]
  have hcamPos : camPos (Real.pi / 2) 20 = ⟨0, 0, -20⟩ := by
    norm_num [camPos, Vec3.normalize, Vec3.length, Vec3.dot, Vec3.smul,
      Real.cos_pi_div_two, Real.sin_pi_div_two, Real.sqrt_one]
  have hFace : faceToward ⟨0, 0, -20⟩ Vec3.zero ⟨0, 1, 0⟩
      = ⟨⟨-1, 0, 0⟩, ⟨0, 1, 0⟩, ⟨0, 0, -1⟩⟩ := by
    norm_num [faceToward, Vec3.zero, Vec3.sub, Vec3.normalize, Vec3.length,
      Vec3.dot, Vec3.cross, Vec3.smul, h400, Real.sqrt_one]
  have hQuat : toScaleRotationTranslationRot ⟨⟨-1, 0, 0⟩, ⟨0, 1, 0⟩, ⟨0, 0, -1⟩⟩
      = ⟨0, 1, 0, 0⟩ := by
    norm_num [toScaleRotationTranslationRot, Mat3.det, signum, quatFromMat3,
      Vec3.dot, Vec3.cross, Vec3.length, Vec3.smul, h4, Real.sqrt_one]
  have hFRY : Quat.fromRotationY (0 : ℝ) = Quat.identity := by
    norm_num [Quat.fromRotationY, Quat.identity]
  have hplayers : ((updateCamera 0 ⟨false, false, false, false⟩
      [(c4Pos, Transform.identityT)] c4Lookup [Player.default]).players.map
        Player.pos_rotation) = [⟨0, 1, 0, 0⟩] := by
    simp [updateCamera, orbitStep, camApply, keyMovement, Vec2.zero, Vec2.smul,
      c4Pos, c4Lookup, hpitch, hdist, hcamPos, hFace, hQuat, hFRY,
      Quat.mul, Quat.identity]
  rw [hplayers]
  simp only [c4Pos, neg_zero, hFRY, Quat.identity, ne_eq, List.cons.injEq,
    Quat.mk.injEq, and_true, true_and]
  norm_num

/-- Claim C4 (amended): for the single orbit entity of the scene, when the camera
lookup succeeds `update_camera` caches into every `Player` the pose produced
this frame: `pos_translation` is the post-movement translation of the orbit entity,
and `pos_rotation` is the post-movement yaw rotation
`Quat::from_rotation_y(-yaw)` multiplied by the camera look-at rotation of
the same frame. -/
theorem update_camera_caches_target_pose (dt : ℝ) (keys : KeyboardInput)
    (pos : Position) (transform : Transform) (lookup : Nat → Option Transform)
    (players : List Player) (ce : Nat) (camTrans : Transform)
    (hce : pos.camera_entity = some ce) (hlk : lookup ce = some camTrans) :
    (updateCamera dt keys [(pos, transform)] lookup players).players =
      players.map (fun _ =>
        { pos_translation :=
            ((orbitStep ((keyMovement keys).smul (dt * 10)) pos transform).2.1).translation,
          pos_rotation := Quat.mul (Quat.fromRotationY (-pos.yaw))
            (toScaleRotationTranslationRot (faceToward
              (camPos ((orbitStep ((keyMovement keys).smul (dt * 10)) pos transform).1.camera_pitch)
                ((orbitStep ((keyMovement keys).smul (dt * 10)) pos transform).1.camera_distance))
              Vec3.zero ⟨0, 1, 0⟩)) }) := by
  simp [updateCamera, camApply, orbitStep_camOpt, orbitStep_rotation, hce, hlk]

/-- Witness instantiating `update_camera_caches_target_pose` at the concrete
claim C4 scenario. -/
theorem update_camera_caches_target_pose_witness :
    (updateCamera 0 ⟨false, false, false, false⟩ [(c4Pos, Transform.identityT)]
        c4Lookup [Player.default]).players =
      [Player.default].map (fun _ =>
        { pos_translation :=
            ((orbitStep ((keyMovement ⟨false, false, false, false⟩).smul ((0:ℝ) * 10))
              c4Pos Transform.identityT).2.1).translation,
          pos_rotation := Quat.mul (Quat.fromRotationY (-c4Pos.yaw))
            (toScaleRotationTranslationRot (faceToward
              (camPos ((orbitStep ((keyMovement ⟨false, false, false, false⟩).smul ((0:ℝ) * 10))
                  c4Pos Transform.identityT).1.camera_pitch)
                ((orbitStep ((keyMovement ⟨false, false, false, false⟩).smul ((0:ℝ) * 10))
                  c4Pos Transform.identityT).1.camera_distance))
              Vec3.zero ⟨0, 1, 0⟩)) }) :=
  update_camera_caches_target_pose 0 ⟨false, false, false, false⟩ c4Pos
    Transform.identityT c4Lookup [Player.default] 0 Transform.identityT rfl rfl
